import Mathlib

/-!
# cache2go: cache items and cache tables

A shallow embedding of `cacheitem.go` (the `CacheItem` record and its
methods) together with a model of the cache table that owns the items.

Conventions of the embedding:

* `time.Time` and `time.Duration` are integers (nanoseconds); a method that
  calls `time.Now()` takes the clock reading as an extra argument `now`.
* A Go `[]byte` is `Option (List UInt8)`: `none` is the nil slice, `some bs`
  a non-nil slice holding the bytes `bs`.
* The about-to-expire handlers have Go type `func(key interface{})`.  They are
  opaque to the item, which only stores them, so the embedding is parametric
  in the handler type `F`.
* The embedded `sync.RWMutex` serialises the methods; the embedding is the
  sequential behaviour of each method, so the lock has no field.
-/

namespace cache2go

/-- Clock readings (`time.Time`), in nanoseconds. -/
abbrev Time := Int

/-- Durations (`time.Duration`), in nanoseconds; may be negative. -/
abbrev Duration := Int

/-- Go byte slices: `none` is the nil slice. -/
abbrev Bytes := Option (List UInt8)

/-- CacheItem is an individual cache item (`cacheitem.go`, lines 18-35). -/
structure CacheItem (F : Type) where
  /-- The item's key. -/
  key : String
  /-- The item's data. -/
  data : Bytes
  /-- How long the item lives in the cache when not accessed or kept alive. -/
  lifeSpan : Duration
  /-- Creation timestamp. -/
  createdOn : Time
  /-- Last access timestamp. -/
  accessedOn : Time
  /-- Callbacks triggered right before removing the item from the cache. -/
  aboutToExpire : List F
  deriving DecidableEq, Repr

variable {F : Type}

/-- NewCacheItem returns a newly created item; `now` is the value of
`time.Now()` read on line 43. -/
def NewCacheItem (key : String) (data : Bytes) (ttl : Duration) (now : Time) : CacheItem F :=
  { key := key
    lifeSpan := ttl
    createdOn := now
    accessedOn := now
    aboutToExpire := []
    data := data }

namespace CacheItem

/-- KeepAlive marks an item to be kept for another expiration period. -/
def KeepAlive (item : CacheItem F) (now : Time) : CacheItem F :=
  { item with accessedOn := now }

/-- LifeSpan returns this item's expiration duration. -/
def LifeSpan (item : CacheItem F) : Duration := item.lifeSpan

/-- AccessedOn returns when this item was last accessed. -/
def AccessedOn (item : CacheItem F) : Time := item.accessedOn

/-- CreatedOn returns when this item was added to the cache. -/
def CreatedOn (item : CacheItem F) : Time := item.createdOn

/-- Key returns the key of this cached item. -/
def Key (item : CacheItem F) : String := item.key

/-- Data returns the value of this cached item. -/
def Data (item : CacheItem F) : Bytes := item.data

/-- RemoveAboutToExpireCallback empties the about-to-expire callback queue. -/
def RemoveAboutToExpireCallback (item : CacheItem F) : CacheItem F :=
  { item with aboutToExpire := [] }

/-- SetAboutToExpireCallback: when the queue is non-empty it is first emptied
through `RemoveAboutToExpireCallback`, then the handler is appended. -/
def SetAboutToExpireCallback (item : CacheItem F) (f : F) : CacheItem F :=
  let item1 := if item.aboutToExpire.length > 0 then item.RemoveAboutToExpireCallback else item
  { item1 with aboutToExpire := item1.aboutToExpire ++ [f] }

/-- AddAboutToExpireCallback appends a new callback to the queue. -/
def AddAboutToExpireCallback (item : CacheItem F) (f : F) : CacheItem F :=
  { item with aboutToExpire := item.aboutToExpire ++ [f] }

end CacheItem

/-- The methods of `CacheItem`, as the operations a client can apply to an
item it holds. -/
inductive ItemOp (F : Type) where
  | KeepAlive
  | LifeSpan
  | AccessedOn
  | CreatedOn
  | Key
  | Data
  | SetAboutToExpireCallback (f : F)
  | AddAboutToExpireCallback (f : F)
  | RemoveAboutToExpireCallback
  deriving DecidableEq, Repr

/-- The item after one method call made when the clock reads `now`.  The
accessors return a value and leave the item as it is. -/
def ItemOp.apply (op : ItemOp F) (now : Time) (item : CacheItem F) : CacheItem F :=
  match op with
  | .KeepAlive => item.KeepAlive now
  | .LifeSpan => item
  | .AccessedOn => item
  | .CreatedOn => item
  | .Key => item
  | .Data => item
  | .SetAboutToExpireCallback f => item.SetAboutToExpireCallback f
  | .AddAboutToExpireCallback f => item.AddAboutToExpireCallback f
  | .RemoveAboutToExpireCallback => item.RemoveAboutToExpireCallback

/-- The item after a sequence of method calls, each paired with the clock
reading at which it runs. -/
def runOps (item : CacheItem F) (ops : List (Time × ItemOp F)) : CacheItem F :=
  ops.foldl (fun it p => p.2.apply p.1 it) item

/-- The clock never goes backwards: the readings, starting from `t0`, are
non-decreasing. -/
def clockMonotone : Time → List (Time × ItemOp F) → Bool
  | _, [] => true
  | t0, p :: ops => decide (t0 ≤ p.1) && clockMonotone p.1 ops

/-! ## The cache table

The table implementation is not among the available sources (only its tests
and callers are); the definitions below follow the specification of the
table.  Handlers registered on the table are opaque closures owned by the
caller, so the model is parametric in their type `G` and reports the
invocations an operation makes, in order, instead of running them.  The
arguments handed through to the loader have the opaque type `A`.  Diagnostic
output to the logger is not part of the model. -/

/-- Modelled from the spec: the error kinds of the table operations, which are
declared outside the available sources.  `NotFound` is the only defined error
kind (section 7). -/
inductive CacheError where
  | NotFound
  deriving DecidableEq, Repr

/-- Modelled from the spec: one invocation of a table-level handler with an
entry; the dispatch code is outside the available sources. -/
structure Fired (F G : Type) where
  handler : G
  item : CacheItem F
  deriving DecidableEq, Repr

/-- Modelled from the spec: the entry mapping of a table (section 3, `entries`),
a finite map from keys to entries kept as an association list in which the
first binding of a key is the one in force. -/
abbrev Entries (F : Type) := List (String × CacheItem F)

/-- Modelled from the spec: map lookup `entries[key]` of the absent table code. -/
def Entries.get (m : Entries F) (key : String) : Option (CacheItem F) :=
  (m.find? (fun e => e.1 = key)).map Prod.snd

/-- Modelled from the spec: map removal `delete(entries, key)` of the absent
table code. -/
def Entries.remove (m : Entries F) (key : String) : Entries F :=
  m.filter (fun e => e.1 ≠ key)

/-- Modelled from the spec: map assignment `entries[key] = item` of the absent
table code; any earlier binding of the key is discarded. -/
def Entries.set (m : Entries F) (key : String) (item : CacheItem F) : Entries F :=
  (key, item) :: m.remove key

/-- Modelled from the spec: the Table of section 3, whose declaration is
outside the available sources.  `cleanupTimer` is the scheduling state of the
sweeper: `none` when it is idle, `some w` when it is armed to wake at `w`. -/
structure CacheTable (F G A : Type) where
  name : String
  entries : Entries F
  cleanupTimer : Option Time
  loader : Option (String → List A → Option (CacheItem F))
  addedCallbacks : List G
  deletingCallbacks : List G

/-- The outcome of a table operation: the value it returns, the table
afterwards, and the handler invocations it made, in order. -/
structure Outcome (F G A R : Type) where
  ret : R
  table : CacheTable F G A
  fired : List (Fired F G)

variable {G A : Type}

namespace CacheTable

/-- Modelled from the spec: a table is created empty on first access by name
(section 3, lifecycle); the registry that does so is outside the available
sources. -/
def empty (name : String) : CacheTable F G A :=
  { name := name, entries := [], cleanupTimer := none, loader := none,
    addedCallbacks := [], deletingCallbacks := [] }

/-- Modelled from the spec: the insertion path of `add` (section 4.2), absent
from the available sources: the entry is inserted, overwriting any existing
entry under the same key without firing its delete callbacks; every registered
added-callback is fired with the new entry; and when the lifespan is positive
the sweeper is scheduled to wake no later than the entry's expiry. -/
def insert (table : CacheTable F G A) (item : CacheItem F) :
    CacheTable F G A × List (Fired F G) :=
  let expiry := item.accessedOn + item.lifeSpan
  let timer :=
    if item.lifeSpan > 0 then
      match table.cleanupTimer with
      | none => some expiry
      | some w => some (min w expiry)
    else table.cleanupTimer
  ({ table with entries := table.entries.set item.key item, cleanupTimer := timer },
   table.addedCallbacks.map (fun g => { handler := g, item := item }))

/-- Modelled from the spec: `add(key, payload, lifespan) -> Entry` (section
4.2), absent from the available sources: constructs a new entry at clock
reading `now`, inserts it and returns it. -/
def Add (table : CacheTable F G A) (key : String) (data : Bytes) (lifeSpan : Duration)
    (now : Time) : Outcome F G A (CacheItem F) :=
  let item : CacheItem F := NewCacheItem key data lifeSpan now
  let r := table.insert item
  { ret := item, table := r.1, fired := r.2 }

/-- Modelled from the spec: `value(key, ...loaderArgs) -> payload, error`
(section 4.2), absent from the available sources.  On a hit the entry's access
time is refreshed and its payload returned.  On a miss a configured loader is
invoked; an entry it returns is inserted through the path of `add` under the
requested key and its payload returned; otherwise the call fails with
`NotFound` and a nil payload. -/
def Value (table : CacheTable F G A) (key : String) (args : List A) (now : Time) :
    Outcome F G A (Bytes × Option CacheError) :=
  match table.entries.get key with
  | some r =>
    { ret := (r.data, none)
      table := { table with entries := table.entries.set key (r.KeepAlive now) }
      fired := [] }
  | none =>
    match table.loader with
    | some load =>
      match load key args with
      | some item =>
        let r := table.Add key item.data item.lifeSpan now
        { ret := (item.data, none), table := r.table, fired := r.fired }
      | none => { ret := (none, some CacheError.NotFound), table := table, fired := [] }
    | none => { ret := (none, some CacheError.NotFound), table := table, fired := [] }

/-- Modelled from the spec: `exists(key) -> bool` (section 4.2), absent from
the available sources: membership test only. -/
def Exists (table : CacheTable F G A) (key : String) : Bool :=
  (table.entries.get key).isSome

/-- Modelled from the spec: `notFoundAdd(key, payload, lifespan) -> bool`
(section 4.2), absent from the available sources: checks for absence and
inserts in one critical section; returns whether the insertion happened. -/
def NotFoundAdd (table : CacheTable F G A) (key : String) (data : Bytes)
    (lifeSpan : Duration) (now : Time) : Outcome F G A Bool :=
  match table.entries.get key with
  | some _ => { ret := false, table := table, fired := [] }
  | none =>
    let r := table.insert (NewCacheItem key data lifeSpan now)
    { ret := true, table := r.1, fired := r.2 }

/-- Modelled from the spec: `delete(key) -> Entry, error` (section 4.2), absent
from the available sources: removes the entry if present, fires every
deleting-callback with the removed entry and returns it; fails with `NotFound`
if the key is absent. -/
def Delete (table : CacheTable F G A) (key : String) :
    Outcome F G A (Option (CacheItem F) × Option CacheError) :=
  match table.entries.get key with
  | some r =>
    { ret := (some r, none)
      table := { table with entries := table.entries.remove key }
      fired := table.deletingCallbacks.map (fun g => { handler := g, item := r }) }
  | none => { ret := (none, some CacheError.NotFound), table := table, fired := [] }

/-- Modelled from the spec: `flush()` (section 4.2), absent from the available
sources: removes all entries without firing deleting-callbacks and disarms the
sweeper. -/
def Flush (table : CacheTable F G A) : Outcome F G A Unit :=
  { ret := (), table := { table with entries := [], cleanupTimer := none }, fired := [] }

/-- Modelled from the spec: `count() -> int` (section 4.2), absent from the
available sources: size of the entry mapping. -/
def Count (table : CacheTable F G A) : Nat :=
  table.entries.length

end CacheTable

/-! ## Properties of cache items -/

/-- C2: an item built by `NewCacheItem key data ttl` at clock reading `t` has
`Key() = key`, `Data() = data`, `LifeSpan() = ttl`, `CreatedOn() = t`,
`AccessedOn() = t` (so the access time equals the creation time) and an empty
about-to-expire callback list. -/
theorem NewCacheItem_fields (key : String) (data : Bytes) (ttl : Duration) (t : Time) :
    (NewCacheItem key data ttl t : CacheItem F).Key = key ∧
    (NewCacheItem key data ttl t : CacheItem F).Data = data ∧
    (NewCacheItem key data ttl t : CacheItem F).LifeSpan = ttl ∧
    (NewCacheItem key data ttl t : CacheItem F).CreatedOn = t ∧
    (NewCacheItem key data ttl t : CacheItem F).AccessedOn = t ∧
    (NewCacheItem key data ttl t : CacheItem F).AccessedOn
      = (NewCacheItem key data ttl t : CacheItem F).CreatedOn ∧
    (NewCacheItem key data ttl t : CacheItem F).aboutToExpire = [] :=
  ⟨rfl, rfl, rfl, rfl, rfl, rfl, rfl⟩

/-- The callback list after `SetAboutToExpireCallback f`, whatever it was. -/
theorem CacheItem.aboutToExpire_set (item : CacheItem F) (f : F) :
    (item.SetAboutToExpireCallback f).aboutToExpire = [f] := by
  unfold CacheItem.SetAboutToExpireCallback CacheItem.RemoveAboutToExpireCallback
  cases h : item.aboutToExpire with
  | nil => simp [h]
  | cons a l => simp

/-- C6: whatever the current about-to-expire callback list of an item, after
`SetAboutToExpireCallback f` the list is exactly `[f]`; two successive Set
calls with `f` then `g` leave only `g` registered. -/
theorem SetAboutToExpireCallback_replaces (item : CacheItem F) (f g : F) :
    (item.SetAboutToExpireCallback f).aboutToExpire = [f] ∧
    ((item.SetAboutToExpireCallback f).SetAboutToExpireCallback g).aboutToExpire = [g] :=
  ⟨item.aboutToExpire_set f, (item.SetAboutToExpireCallback f).aboutToExpire_set g⟩

/-- Successive `AddAboutToExpireCallback` calls append their handlers in order. -/
theorem CacheItem.aboutToExpire_foldl_add (fs : List F) (item : CacheItem F) :
    (fs.foldl CacheItem.AddAboutToExpireCallback item).aboutToExpire
      = item.aboutToExpire ++ fs := by
  induction fs generalizing item with
  | nil => simp
  | cons f fs ih => simp [ih, CacheItem.AddAboutToExpireCallback]

/-- C7: for an item with about-to-expire callback list `L`, after
`AddAboutToExpireCallback f` the list is `L` followed by `f`: the first
`L.length` handlers are those of `L`, the length grows by exactly one and `f`
is last.  Hence the successive Add calls `fs` on a fresh item yield exactly
`fs`, in registration order. -/
theorem AddAboutToExpireCallback_appends (item : CacheItem F) (f : F) (fs : List F)
    (key : String) (data : Bytes) (ttl : Duration) (t : Time) :
    (item.AddAboutToExpireCallback f).aboutToExpire = item.aboutToExpire ++ [f] ∧
    (item.AddAboutToExpireCallback f).aboutToExpire.take item.aboutToExpire.length
      = item.aboutToExpire ∧
    (item.AddAboutToExpireCallback f).aboutToExpire.length = item.aboutToExpire.length + 1 ∧
    (item.AddAboutToExpireCallback f).aboutToExpire.getLast? = some f ∧
    (fs.foldl CacheItem.AddAboutToExpireCallback (NewCacheItem key data ttl t)).aboutToExpire
      = fs := by
  refine ⟨rfl, ?_, ?_, ?_, ?_⟩
  · simp [CacheItem.AddAboutToExpireCallback]
  · simp [CacheItem.AddAboutToExpireCallback]
  · simp [CacheItem.AddAboutToExpireCallback]
  · simp [CacheItem.aboutToExpire_foldl_add, NewCacheItem]

/-- C8: after `RemoveAboutToExpireCallback` the about-to-expire callback list
is empty; the operation is idempotent; and a `SetAboutToExpireCallback f` or
`AddAboutToExpireCallback f` followed by it leaves no callback registered. -/
theorem RemoveAboutToExpireCallback_clears (item : CacheItem F) (f : F) :
    item.RemoveAboutToExpireCallback.aboutToExpire = [] ∧
    item.RemoveAboutToExpireCallback.RemoveAboutToExpireCallback
      = item.RemoveAboutToExpireCallback ∧
    (item.SetAboutToExpireCallback f).RemoveAboutToExpireCallback.aboutToExpire = [] ∧
    (item.AddAboutToExpireCallback f).RemoveAboutToExpireCallback.aboutToExpire = [] :=
  ⟨rfl, rfl, rfl, rfl⟩

/-- No method changes the creation time of an item. -/
theorem ItemOp.createdOn_apply (op : ItemOp F) (now : Time) (item : CacheItem F) :
    (op.apply now item).createdOn = item.createdOn := by
  cases op <;> first | rfl | (simp [ItemOp.apply, CacheItem.SetAboutToExpireCallback]; split <;> rfl)

/-- After a method call at clock reading `now` the access time is `now` or is
what it was. -/
theorem ItemOp.accessedOn_apply (op : ItemOp F) (now : Time) (item : CacheItem F) :
    (op.apply now item).accessedOn = now ∨
    (op.apply now item).accessedOn = item.accessedOn := by
  cases op
  case KeepAlive => exact Or.inl rfl
  case SetAboutToExpireCallback f =>
    refine Or.inr ?_
    simp only [ItemOp.apply, CacheItem.SetAboutToExpireCallback]
    split <;> rfl
  all_goals exact Or.inr rfl

/-- The invariant `createdOn ≤ accessedOn` is kept along any run whose clock
readings never fall below a bound `t` that the creation time does not exceed. -/
theorem runOps_invariant (ops : List (Time × ItemOp F)) (item : CacheItem F) (t : Time)
    (hc : clockMonotone t ops = true) (ht : item.createdOn ≤ t)
    (hi : item.createdOn ≤ item.accessedOn) (n : Nat) :
    (runOps item (ops.take n)).createdOn ≤ (runOps item (ops.take n)).accessedOn := by
  induction ops generalizing item t n with
  | nil => simpa [runOps] using hi
  | cons p ops ih =>
    cases n with
    | zero => simpa [runOps] using hi
    | succ n =>
      have hc2 : t ≤ p.1 ∧ clockMonotone p.1 ops = true := by
        simpa [clockMonotone] using hc
      have hcr : (p.2.apply p.1 item).createdOn = item.createdOn :=
        ItemOp.createdOn_apply p.2 p.1 item
      have step : runOps item ((p :: ops).take (n + 1))
          = runOps (p.2.apply p.1 item) (ops.take n) := by
        simp [runOps]
      rw [step]
      refine ih (p.2.apply p.1 item) p.1 hc2.2 ?_ ?_ n
      · rw [hcr]; exact le_trans ht hc2.1
      · rcases ItemOp.accessedOn_apply p.2 p.1 item with h | h
        · rw [hcr, h]; exact le_trans ht hc2.1
        · rw [hcr, h]; exact hi

/-- C9: if the clock never goes backwards, then for an item created by
`NewCacheItem` at reading `t0` and any finite sequence of item operations
applied afterwards (KeepAlive, the three callback operations and the
accessors), `AccessedOn() >= CreatedOn()` holds in every state reached along
the way (after the first `n` operations, for every `n`). -/
theorem accessedOn_ge_createdOn (key : String) (data : Bytes) (ttl : Duration) (t0 : Time)
    (ops : List (Time × ItemOp F)) (hclock : clockMonotone t0 ops = true) (n : Nat) :
    (runOps (NewCacheItem key data ttl t0) (ops.take n)).CreatedOn
      ≤ (runOps (NewCacheItem key data ttl t0) (ops.take n)).AccessedOn :=
  runOps_invariant ops (NewCacheItem key data ttl t0) t0 hclock (le_refl _) (le_refl _) n

/-- A run with three `KeepAlive` refreshes under a monotone clock satisfies C9
at every step. -/
theorem accessedOn_ge_createdOn_witness :
    clockMonotone (3 : Time)
      [((5 : Time), (ItemOp.KeepAlive : ItemOp Nat)), (5, ItemOp.SetAboutToExpireCallback 1),
       (7, ItemOp.KeepAlive), (7, ItemOp.AccessedOn), (9, ItemOp.KeepAlive)] = true ∧
    ∀ n : Nat,
      (runOps (NewCacheItem "key" (some [118]) 0 3)
        (([((5 : Time), (ItemOp.KeepAlive : ItemOp Nat)), (5, ItemOp.SetAboutToExpireCallback 1),
           (7, ItemOp.KeepAlive), (7, ItemOp.AccessedOn), (9, ItemOp.KeepAlive)]).take n)).CreatedOn
      ≤ (runOps (NewCacheItem "key" (some [118]) 0 3)
        (([((5 : Time), (ItemOp.KeepAlive : ItemOp Nat)), (5, ItemOp.SetAboutToExpireCallback 1),
           (7, ItemOp.KeepAlive), (7, ItemOp.AccessedOn), (9, ItemOp.KeepAlive)]).take n)).AccessedOn :=
  ⟨by decide,
   fun n => accessedOn_ge_createdOn "key" (some [118]) 0 3 _ (by decide) n⟩

/-- C10: `KeepAlive` at clock reading `t` yields `AccessedOn() = t` whatever
the previous access time, and key, data, lifespan, creation time and callback
list are as before.  More generally no item operation changes key, data,
lifespan or creation time, and the three callback operations leave the access
time as it was. -/
theorem KeepAlive_frame (item : CacheItem F) (t : Time) (op : ItemOp F) (now : Time) (f : F) :
    ((item.KeepAlive t).AccessedOn = t ∧
     (item.KeepAlive t).Key = item.Key ∧
     (item.KeepAlive t).Data = item.Data ∧
     (item.KeepAlive t).LifeSpan = item.LifeSpan ∧
     (item.KeepAlive t).CreatedOn = item.CreatedOn ∧
     (item.KeepAlive t).aboutToExpire = item.aboutToExpire) ∧
    ((op.apply now item).Key = item.Key ∧
     (op.apply now item).Data = item.Data ∧
     (op.apply now item).LifeSpan = item.LifeSpan ∧
     (op.apply now item).CreatedOn = item.CreatedOn) ∧
    ((item.SetAboutToExpireCallback f).AccessedOn = item.AccessedOn ∧
     (item.AddAboutToExpireCallback f).AccessedOn = item.AccessedOn ∧
     item.RemoveAboutToExpireCallback.AccessedOn = item.AccessedOn) := by
  have hset : ∀ g : F, (item.SetAboutToExpireCallback g).key = item.key ∧
      (item.SetAboutToExpireCallback g).data = item.data ∧
      (item.SetAboutToExpireCallback g).lifeSpan = item.lifeSpan ∧
      (item.SetAboutToExpireCallback g).createdOn = item.createdOn ∧
      (item.SetAboutToExpireCallback g).accessedOn = item.accessedOn := by
    intro g
    simp only [CacheItem.SetAboutToExpireCallback]
    split <;> exact ⟨rfl, rfl, rfl, rfl, rfl⟩
  refine ⟨⟨rfl, rfl, rfl, rfl, rfl, rfl⟩, ?_, ⟨(hset f).2.2.2.2, rfl, rfl⟩⟩
  cases op
  case SetAboutToExpireCallback g =>
    exact ⟨(hset g).1, (hset g).2.1, (hset g).2.2.1, (hset g).2.2.2.1⟩
  all_goals exact ⟨rfl, rfl, rfl, rfl⟩

/-! ## Properties of the cache table -/

/-- Looking up a key right after binding it yields the bound entry. -/
theorem Entries.get_set (m : Entries F) (key : String) (item : CacheItem F) :
    (m.set key item).get key = some item := by
  simp [Entries.set, Entries.get]

/-- A removed key is absent. -/
theorem Entries.get_remove (m : Entries F) (key : String) :
    (m.remove key).get key = none := by
  induction m with
  | nil => rfl
  | cons e m ih =>
    by_cases h : e.1 = key
    · simp [Entries.remove, Entries.get, h]
    · simp [Entries.remove, Entries.get, h]

/-- Removing an absent key leaves the mapping as it is. -/
theorem Entries.remove_of_get_none (m : Entries F) (key : String)
    (h : m.get key = none) : m.remove key = m := by
  induction m with
  | nil => rfl
  | cons e m ih =>
    by_cases he : e.1 = key
    · simp [Entries.get, he] at h
    · have h2 : Entries.get m key = none := by simpa [Entries.get, he] using h
      have ih2 := ih h2
      simp only [Entries.remove] at ih2 ⊢
      rw [List.filter_cons_of_pos (by simpa using he), ih2]

/-- The entries after an `Add`. -/
theorem CacheTable.entries_Add (table : CacheTable F G A) (key : String) (data : Bytes)
    (lifeSpan : Duration) (now : Time) :
    (table.Add key data lifeSpan now).table.entries
      = table.entries.set key (NewCacheItem key data lifeSpan now) := rfl

/-- A `Value` call on a present key returns its payload and no error. -/
theorem CacheTable.Value_hit (table : CacheTable F G A) (key : String) (args : List A)
    (now : Time) (r : CacheItem F) (h : table.entries.get key = some r) :
    (table.Value key args now).ret = (r.data, none) := by
  simp [CacheTable.Value, h]

/-- A `Value` call on an absent key of a table without loader fails. -/
theorem CacheTable.Value_miss (table : CacheTable F G A) (key : String) (args : List A)
    (now : Time) (h : table.entries.get key = none) (hl : table.loader = none) :
    (table.Value key args now).ret = (none, some CacheError.NotFound) := by
  simp [CacheTable.Value, h, hl]

/-- A `NotFoundAdd` call on a present key returns false and changes nothing. -/
theorem CacheTable.NotFoundAdd_present (table : CacheTable F G A) (key : String) (data : Bytes)
    (lifeSpan : Duration) (now : Time) (r : CacheItem F) (h : table.entries.get key = some r) :
    table.NotFoundAdd key data lifeSpan now = { ret := false, table := table, fired := [] } := by
  simp [CacheTable.NotFoundAdd, h]

/-- A `Delete` call on an absent key fails and changes nothing. -/
theorem CacheTable.Delete_miss (table : CacheTable F G A) (key : String)
    (h : table.entries.get key = none) :
    table.Delete key
      = { ret := (none, some CacheError.NotFound), table := table, fired := [] } := by
  simp [CacheTable.Delete, h]

/-- C1: for every table state, key `k`, payload `v` and lifespan `d` (in
particular every `d >= 0`), `Add(k, v, d)` followed by `Value(k)` at the same
clock reading returns exactly `v` with no error, whether or not `k` was present
before the `Add`; the table then holds, under `k`, the entry that `Add`
returned and nothing of an overwritten one. -/
theorem Add_then_Value (table : CacheTable F G A) (k : String) (v : Bytes) (d : Duration)
    (now : Time) (args : List A) :
    ((table.Add k v d now).table.Value k args now).ret = (v, none) ∧
    (table.Add k v d now).table.entries.get k = some (table.Add k v d now).ret ∧
    (table.Add k v d now).ret.Data = v := by
  have h : (table.Add k v d now).table.entries.get k
      = some (NewCacheItem k v d now) := by
    rw [CacheTable.entries_Add]; exact Entries.get_set _ _ _
  exact ⟨CacheTable.Value_hit _ k args now _ h, h, rfl⟩

/-- C3: if `k` is absent, `NotFoundAdd(k, v, d)` returns true, afterwards the
table contains `k` with payload `v` and `Count()` is one larger, and a second
`NotFoundAdd` with the same key returns false; if `k` is present,
`NotFoundAdd(k, v, d)` returns false and the table is unchanged. -/
theorem NotFoundAdd_once (table : CacheTable F G A) (k : String) (v : Bytes) (d : Duration)
    (now : Time) (v2 : Bytes) (d2 : Duration) (now2 : Time) :
    (table.Exists k = false →
      (table.NotFoundAdd k v d now).ret = true ∧
      (table.NotFoundAdd k v d now).table.Exists k = true ∧
      ((table.NotFoundAdd k v d now).table.entries.get k).map CacheItem.Data = some v ∧
      (table.NotFoundAdd k v d now).table.Count = table.Count + 1 ∧
      ((table.NotFoundAdd k v d now).table.NotFoundAdd k v2 d2 now2).ret = false) ∧
    (table.Exists k = true →
      (table.NotFoundAdd k v d now).ret = false ∧
      (table.NotFoundAdd k v d now).table = table) := by
  constructor
  · intro h
    have hn : table.entries.get k = none := by
      simpa [CacheTable.Exists] using h
    have hout : table.NotFoundAdd k v d now
        = { ret := true, table := (table.insert (NewCacheItem k v d now)).1,
            fired := (table.insert (NewCacheItem k v d now)).2 } := by
      simp [CacheTable.NotFoundAdd, hn]
    have hent : (table.NotFoundAdd k v d now).table.entries
        = table.entries.set k (NewCacheItem k v d now) := by
      rw [hout]; rfl
    have hget : (table.NotFoundAdd k v d now).table.entries.get k
        = some (NewCacheItem k v d now) := by
      rw [hent]; exact Entries.get_set _ _ _
    refine ⟨by rw [hout], ?_, ?_, ?_, ?_⟩
    · simp [CacheTable.Exists, hget]
    · rw [hget]; rfl
    · simp [CacheTable.Count, hent, Entries.set, Entries.remove_of_get_none _ _ hn]
    · rw [CacheTable.NotFoundAdd_present _ k v2 d2 now2 _ hget]
  · intro h
    obtain ⟨r, hr⟩ : ∃ r, table.entries.get k = some r := by
      simpa [CacheTable.Exists, Option.isSome_iff_exists] using h
    simp [CacheTable.NotFoundAdd, hr]

/-- On the empty table of `TestNotFoundAdd` the first `NotFoundAdd` returns
true and the second false, leaving the table as the first call made it. -/
theorem NotFoundAdd_once_witness :
    (CacheTable.empty "testNotFoundAdd" : CacheTable Nat Nat Nat).Exists "testkey" = false ∧
    ((CacheTable.empty "testNotFoundAdd" : CacheTable Nat Nat Nat).NotFoundAdd
      "testkey" (some [118]) 0 10).ret = true ∧
    (((CacheTable.empty "testNotFoundAdd" : CacheTable Nat Nat Nat).NotFoundAdd
      "testkey" (some [118]) 0 10).table.NotFoundAdd "testkey" (some [119]) 0 11).ret = false ∧
    (((CacheTable.empty "testNotFoundAdd" : CacheTable Nat Nat Nat).NotFoundAdd
      "testkey" (some [118]) 0 10).table.NotFoundAdd "testkey" (some [119]) 0 11).table
      = ((CacheTable.empty "testNotFoundAdd" : CacheTable Nat Nat Nat).NotFoundAdd
          "testkey" (some [118]) 0 10).table :=
  ⟨by decide,
   ((NotFoundAdd_once (CacheTable.empty "testNotFoundAdd" : CacheTable Nat Nat Nat)
      "testkey" (some [118]) 0 10 (some [119]) 0 11).1 (by decide)).1,
   ((NotFoundAdd_once (CacheTable.empty "testNotFoundAdd" : CacheTable Nat Nat Nat)
      "testkey" (some [118]) 0 10 (some [119]) 0 11).1 (by decide)).2.2.2.2,
   ((NotFoundAdd_once ((CacheTable.empty "testNotFoundAdd" : CacheTable Nat Nat Nat).NotFoundAdd
      "testkey" (some [118]) 0 10).table
      "testkey" (some [119]) 0 11 (some [119]) 0 11).2 (by decide)).2⟩

/-- C4: for a present key `k`, `Delete(k)` succeeds, returns the removed entry
and leaves `k` absent, so that (with no data loader configured) `Value(k)` then
fails with the not-found error and a nil payload; a second `Delete(k)` fails
with the not-found error and leaves the table unchanged.  `Delete` of any
absent key fails with not-found. -/
theorem Delete_once (table : CacheTable F G A) (k : String) (args : List A) (now : Time) :
    (∀ r : CacheItem F, table.entries.get k = some r →
      (table.Delete k).ret = (some r, none) ∧
      (table.Delete k).table.Exists k = false ∧
      (table.loader = none →
        ((table.Delete k).table.Value k args now).ret = (none, some CacheError.NotFound)) ∧
      ((table.Delete k).table.Delete k).ret = (none, some CacheError.NotFound) ∧
      ((table.Delete k).table.Delete k).table = (table.Delete k).table) ∧
    (table.Exists k = false →
      (table.Delete k).ret = (none, some CacheError.NotFound) ∧
      (table.Delete k).table = table) := by
  constructor
  · intro r hr
    have hout : table.Delete k
        = { ret := (some r, none)
            table := { table with entries := table.entries.remove k }
            fired := table.deletingCallbacks.map (fun g => { handler := g, item := r }) } := by
      simp [CacheTable.Delete, hr]
    have hget : (table.Delete k).table.entries.get k = none := by
      rw [hout]; exact Entries.get_remove _ _
    refine ⟨by rw [hout], ?_, ?_, ?_, ?_⟩
    · simp [CacheTable.Exists, hget]
    · intro hl
      refine CacheTable.Value_miss _ k args now hget ?_
      rw [hout]; exact hl
    · rw [CacheTable.Delete_miss _ k hget]
    · rw [CacheTable.Delete_miss _ k hget]
  · intro h
    have hn : table.entries.get k = none := by
      simpa [CacheTable.Exists] using h
    simp [CacheTable.Delete, hn]

/-- On the table of `TestDelete`, holding one entry, the first `Delete`
returns that entry, `Value` then fails, and `Delete` on the empty table fails. -/
theorem Delete_once_witness :
    ((CacheTable.empty "testDelete" : CacheTable Nat Nat Nat).Add
      "testkey" (some [118]) 0 10).table.entries.get "testkey"
      = some (NewCacheItem "testkey" (some [118]) 0 10) ∧
    (((CacheTable.empty "testDelete" : CacheTable Nat Nat Nat).Add
      "testkey" (some [118]) 0 10).table.Delete "testkey").ret
      = (some (NewCacheItem "testkey" (some [118]) 0 10), none) ∧
    ((((CacheTable.empty "testDelete" : CacheTable Nat Nat Nat).Add
      "testkey" (some [118]) 0 10).table.Delete "testkey").table.Value "testkey" [] 11).ret
      = (none, some CacheError.NotFound) ∧
    ((CacheTable.empty "testDelete" : CacheTable Nat Nat Nat).Delete "testkey").ret
      = (none, some CacheError.NotFound) :=
  ⟨by decide,
   ((Delete_once ((CacheTable.empty "testDelete" : CacheTable Nat Nat Nat).Add
      "testkey" (some [118]) 0 10).table "testkey" [] 11).1
      (NewCacheItem "testkey" (some [118]) 0 10) (by decide)).1,
   ((Delete_once ((CacheTable.empty "testDelete" : CacheTable Nat Nat Nat).Add
      "testkey" (some [118]) 0 10).table "testkey" [] 11).1
      (NewCacheItem "testkey" (some [118]) 0 10) (by decide)).2.2.1 rfl,
   ((Delete_once (CacheTable.empty "testDelete" : CacheTable Nat Nat Nat)
      "testkey" [] 11).2 (by decide)).1⟩

/-- C5: after `Flush()`, `Count() = 0` and, with no data loader configured,
`Value(k)` fails with the not-found error and a nil payload for every key `k`
(so for every key present before the flush); the table remains usable: a later
`Add(k, v, d)` followed by `Value(k)` returns `v`. -/
theorem Flush_empties (table : CacheTable F G A) (k : String) (args : List A) (now : Time)
    (v : Bytes) (d : Duration) (now2 : Time) :
    table.Flush.table.Count = 0 ∧
    (table.loader = none →
      (table.Flush.table.Value k args now).ret = (none, some CacheError.NotFound)) ∧
    ((table.Flush.table.Add k v d now2).table.Value k args now2).ret = (v, none) := by
  refine ⟨rfl, ?_, ?_⟩
  · intro hl
    exact CacheTable.Value_miss _ k args now rfl hl
  · have h : (table.Flush.table.Add k v d now2).table.entries.get k
        = some (NewCacheItem k v d now2) := by
      rw [CacheTable.entries_Add]; exact Entries.get_set _ _ _
    exact CacheTable.Value_hit _ k args now2 _ h

/-- On the table of `TestFlush`, holding one entry and no loader, `Flush`
leaves nothing to count and `Value` of the flushed key fails. -/
theorem Flush_empties_witness :
    ((CacheTable.empty "testFlush" : CacheTable Nat Nat Nat).Add
      "testkey" (some [118]) 10000000000 10).table.loader = none ∧
    ((CacheTable.empty "testFlush" : CacheTable Nat Nat Nat).Add
      "testkey" (some [118]) 10000000000 10).table.Exists "testkey" = true ∧
    ((CacheTable.empty "testFlush" : CacheTable Nat Nat Nat).Add
      "testkey" (some [118]) 10000000000 10).table.Flush.table.Count = 0 ∧
    (((CacheTable.empty "testFlush" : CacheTable Nat Nat Nat).Add
      "testkey" (some [118]) 10000000000 10).table.Flush.table.Value "testkey" [] 11).ret
      = (none, some CacheError.NotFound) :=
  ⟨rfl, by decide,
   (Flush_empties ((CacheTable.empty "testFlush" : CacheTable Nat Nat Nat).Add
      "testkey" (some [118]) 10000000000 10).table "testkey" [] 11 (some [119]) 0 12).1,
   (Flush_empties ((CacheTable.empty "testFlush" : CacheTable Nat Nat Nat).Add
      "testkey" (some [118]) 10000000000 10).table "testkey" [] 11 (some [119]) 0 12).2.1 rfl⟩

/-! ## The lifespan of a fresh item -/

/-- C11, as stated, fails: built with the negative lifespan `-1`, the item
reports `LifeSpan() = -1`, which is not `max(-1, 0) = 0`. -/
theorem NewCacheItem_lifeSpan_not_clamped :
    (NewCacheItem "key" (some [118]) (-1) 0 : CacheItem Nat).LifeSpan = -1 ∧
    (NewCacheItem "key" (some [118]) (-1) 0 : CacheItem Nat).LifeSpan ≠ max (-1) 0 := by
  decide

/-- C11, amended: for every key, payload and lifespan argument `ttl`, the item
built by `NewCacheItem key data ttl` has `LifeSpan() = ttl`: the lifespan is
stored as given, a negative one included, and so `LifeSpan()` equals
`max(ttl, 0)` exactly when `ttl` is zero or positive. -/
theorem NewCacheItem_lifeSpan_as_given (key : String) (data : Bytes) (ttl : Duration)
    (t : Time) :
    (NewCacheItem key data ttl t : CacheItem F).LifeSpan = ttl ∧
    ((NewCacheItem key data ttl t : CacheItem F).LifeSpan = max ttl 0 ↔ 0 ≤ ttl) := by
  refine ⟨rfl, ?_⟩
  show ttl = max ttl 0 ↔ 0 ≤ ttl
  constructor
  · intro h
    rw [h]
    exact le_max_right ttl 0
  · intro h
    exact (max_eq_left h).symm

end cache2go
